import Mathlib

/-!
Shallow embedding of the ledger core of `src/testnet.js`: the `Transaction`,
`Block` and `Blockchain` classes and their operations.  JavaScript exceptions
are modelled with `Except String`; the nondeterministic inputs of the source
(`Date.now()` timestamps, `crypto.randomBytes` transaction ids, the generated
faucet keypair) are passed in as explicit parameters.  Strings concatenated
into hash inputs follow JavaScript string coercion (`null` prints as "null",
an unassigned field as "undefined").
-/

/-- Modelled external collaborator (node `crypto`): SHA-256 as an ideal,
collision-free hash, represented by tagging the input string.  The source
computes `crypto.createHash('sha256').update(s).digest('hex')`. -/
def sha256 (s : String) : String :=
  "sha256(" ++ s ++ ")"

/-- Modelled external collaborator (`elliptic` secp256k1): the hex public key
derived from a private key, injective in the private key.  Source:
`key.getPublic('hex')`. -/
def pubHex (priv : Nat) : String :=
  "04pub" ++ toString priv

/-- Modelled external collaborator (`elliptic`): signing a digest with a
private key, producing a DER hex string.  Source:
`signingKey.sign(hashTx, 'base64').toDER('hex')`. -/
def ecSign (priv : Nat) (digest : String) : String :=
  "der(" ++ pubHex priv ++ "," ++ digest ++ ")"

/-- Modelled external collaborator (`elliptic`): signature verification.  A
signature verifies against a public key over a digest exactly when it is the
signature produced by that key's owner over that digest (ideal unforgeable
ECDSA).  Source: `ec.keyFromPublic(pub, 'hex').verify(digest, sig)`. -/
def ecVerify (publicKey digest signatureDer : String) : Bool :=
  signatureDer == "der(" ++ publicKey ++ "," ++ digest ++ ")"

/-- JavaScript string coercion of a possibly-`null` string
(`null + s` concatenates as `"null" + s`). -/
def jsNullStr : Option String → String
  | none => "null"
  | some s => s

/-- JavaScript falsiness of a possibly-missing string: `null`/`undefined` and
the empty string are falsy (`!transaction.toAddress`). -/
def jsFalsyStr : Option String → Bool
  | none => true
  | some s => s == ""

/-- `class Transaction` (src/testnet.js:14-22).  `fromAddress` is `none` for
the JavaScript `null` system sentinel; `signature` is `none` until assigned;
`transactionId` is the random hex id, passed in explicitly here. -/
structure Transaction where
  fromAddress : Option String
  toAddress : Option String
  amount : Int
  timestamp : Nat
  signature : Option String
  transactionId : String
deriving DecidableEq, Repr

/-- The `Transaction` constructor (src/testnet.js:15-22): stores the three
arguments, takes the current time and a fresh random id, leaves
`signature` null. -/
def Transaction.create (fromAddress toAddress : Option String) (amount : Int)
    (now : Nat) (randomId : String) : Transaction :=
  { fromAddress := fromAddress
    toAddress := toAddress
    amount := amount
    timestamp := now
    signature := none
    transactionId := randomId }

/-- `Transaction.calculateHash` (src/testnet.js:25-29): SHA-256 over the
string concatenation `fromAddress + toAddress + amount + timestamp`. -/
def Transaction.calculateHash (t : Transaction) : String :=
  sha256 (jsNullStr t.fromAddress ++ jsNullStr t.toAddress
    ++ toString t.amount ++ toString t.timestamp)

/-- `Transaction.signTransaction` (src/testnet.js:32-44): a no-op when
`fromAddress` is null; throws when the signing key's public id differs from
`fromAddress`; otherwise stores the DER signature over `calculateHash()`. -/
def Transaction.signTransaction (t : Transaction) (signingKey : Nat) :
    Except String Transaction :=
  match t.fromAddress with
  | none => .ok t
  | some fromAddr =>
    if pubHex signingKey != fromAddr then
      .error "You cannot sign transactions for other wallets!"
    else
      .ok { t with signature := some (ecSign signingKey t.calculateHash) }

/-- `Transaction.isValid` (src/testnet.js:47-57): `true` for the null system
sentinel; throws when the signature is absent or empty; otherwise verifies
the signature against the `fromAddress` public key over `calculateHash()`. -/
def Transaction.isValid (t : Transaction) : Except String Bool :=
  match t.fromAddress with
  | none => .ok true
  | some fromAddr =>
    match t.signature with
    | none => .error "No signature in this transaction"
    | some s =>
      if s.length == 0 then .error "No signature in this transaction"
      else .ok (ecVerify fromAddr t.calculateHash s)

/-- JSON serialization of an optional string field (`null` or a quoted
string), as `JSON.stringify` produces. -/
def jsonOptStr : Option String → String
  | none => "null"
  | some s => "\"" ++ s ++ "\""

/-- `JSON.stringify` of one `Transaction` object: its six own fields in
insertion order. -/
def Transaction.toJson (t : Transaction) : String :=
  "\x7b\"fromAddress\":" ++ jsonOptStr t.fromAddress
    ++ ",\"toAddress\":" ++ jsonOptStr t.toAddress
    ++ ",\"amount\":" ++ toString t.amount
    ++ ",\"timestamp\":" ++ toString t.timestamp
    ++ ",\"signature\":" ++ jsonOptStr t.signature
    ++ ",\"transactionId\":\"" ++ t.transactionId ++ "\""
    ++ "\x7d"

/-- `JSON.stringify` of an array of transactions. -/
def txsJson (txs : List Transaction) : String :=
  "[" ++ String.intercalate "," (txs.map Transaction.toJson) ++ "]"

/-- `class Block` (src/testnet.js:60-68). -/
structure Block where
  timestamp : Nat
  transactions : List Transaction
  previousHash : String
  hash : String
  slot : Nat
  validator : String
deriving DecidableEq, Repr

/-- The string hashed by `Block.calculateHash` (src/testnet.js:71-75):
`previousHash + timestamp + JSON.stringify(transactions) + slot`, with the
slot taken as whatever string `this.slot` coerces to at call time. -/
def blockHashInput (previousHash : String) (timestamp : Nat)
    (transactions : List Transaction) (slotStr : String) : String :=
  previousHash ++ toString timestamp ++ txsJson transactions ++ slotStr

/-- The `Block` constructor (src/testnet.js:61-68).  The source assigns
`this.hash = this.calculateHash()` on the line BEFORE `this.slot = Date.now()`
is assigned, so at that moment `this.slot` is `undefined` and coerces to the
string "undefined" inside the hash input; only afterwards does `slot` receive
its numeric value (a second `Date.now()` reading, `slotNow` here). -/
def Block.make (timestamp : Nat) (transactions : List Transaction)
    (previousHash : String) (slotNow : Nat) : Block :=
  { timestamp := timestamp
    transactions := transactions
    previousHash := previousHash
    hash := sha256 (blockHashInput previousHash timestamp transactions "undefined")
    slot := slotNow
    validator := "system" }

/-- `Block.calculateHash` (src/testnet.js:71-75) called on a constructed
block, where `this.slot` now holds its numeric value. -/
def Block.calculateHash (b : Block) : String :=
  sha256 (blockHashInput b.previousHash b.timestamp b.transactions (toString b.slot))

/-- The loop body of `Block.hasValidTransactions` (src/testnet.js:78-85):
returns `false` at the first transaction whose `isValid()` is false,
propagating any exception `isValid()` throws. -/
def allTxsValid : List Transaction → Except String Bool
  | [] => .ok true
  | tx :: rest => do
    let v ← tx.isValid
    if !v then .ok false else allTxsValid rest

/-- `Block.hasValidTransactions` (src/testnet.js:78-85). -/
def Block.hasValidTransactions (b : Block) : Except String Bool :=
  allTxsValid b.transactions

/-- `class Blockchain` fields (src/testnet.js:89-104).  The faucet keypair is
kept as its private scalar; `faucetAddress` is its derived public hex id. -/
structure Blockchain where
  chain : List Block
  pendingTransactions : List Transaction
  transactionsPerBlock : Nat
  validatorReward : Nat
  autoValidationInterval : Nat
  faucetKey : Nat
  faucetAddress : String
deriving DecidableEq, Repr

/-- `Blockchain.createGenesisBlock` (src/testnet.js:107-109):
`new Block(Date.now(), [], '0')`. -/
def createGenesisBlock (now slotNow : Nat) : Block :=
  Block.make now [] "0" slotNow

/-- The `Blockchain` constructor (src/testnet.js:89-104): one genesis block,
a pending faucet transaction of 10000000 to the freshly generated faucet
address, batch size 20.  The timer start (`startAutoValidation`) is the
scheduler modelled by explicit `validatePendingTransactions` steps. -/
def Blockchain.init (genesisNow genesisSlot : Nat) (faucetKey : Nat)
    (faucetTxNow : Nat) (faucetTxId : String) : Blockchain :=
  let faucetAddress := pubHex faucetKey
  let faucetTx := Transaction.create none (some faucetAddress) 10000000
    faucetTxNow faucetTxId
  { chain := [createGenesisBlock genesisNow genesisSlot]
    pendingTransactions := [faucetTx]
    transactionsPerBlock := 20
    validatorReward := 10
    autoValidationInterval := 2000
    faucetKey := faucetKey
    faucetAddress := faucetAddress }

/-- `Blockchain.getLatestBlock` (src/testnet.js:112-114):
`chain[chain.length - 1]`.  On an empty chain the source would dereference
`undefined`; every constructed ledger starts with a genesis block, so that
case is unreachable and gets an arbitrary default here. -/
def Blockchain.getLatestBlock (bc : Blockchain) : Block :=
  (bc.chain.getLast?).getD (Block.make 0 [] "" 0)

/-- `Blockchain.validatePendingTransactions` (src/testnet.js:124-141), one
scheduler tick: no-op on an empty pool; otherwise batch the first
`transactionsPerBlock` pending transactions into a new block appended to the
chain and drop them from the pool.  `now` and `slotNow` are the two
`Date.now()` readings (block timestamp and slot). -/
def Blockchain.validatePendingTransactions (bc : Blockchain)
    (now slotNow : Nat) : Blockchain :=
  if bc.pendingTransactions.length == 0 then bc
  else
    let transactionsToValidate := bc.pendingTransactions.take bc.transactionsPerBlock
    let block := Block.make now transactionsToValidate bc.getLatestBlock.hash slotNow
    { bc with
      chain := bc.chain ++ [block]
      pendingTransactions := bc.pendingTransactions.drop bc.transactionsPerBlock }

/-- `Blockchain.addTransaction` (src/testnet.js:144-167): requires a truthy
destination; admits system (null-sender) transactions immediately; requires a
truthy sender otherwise; then requires `isValid()` (whose missing-signature
exception propagates); on success appends to the pending pool and returns the
transaction id. -/
def Blockchain.addTransaction (bc : Blockchain) (transaction : Transaction) :
    Except String (String × Blockchain) :=
  if jsFalsyStr transaction.toAddress then
    .error "Transaction must include a destination address"
  else
    match transaction.fromAddress with
    | none =>
      .ok (transaction.transactionId,
        { bc with pendingTransactions := bc.pendingTransactions ++ [transaction] })
    | some _ =>
      if jsFalsyStr transaction.fromAddress then
        .error "Transaction must include a sender address"
      else do
        let v ← transaction.isValid
        if !v then .error "Cannot add invalid transaction to the chain"
        else
          .ok (transaction.transactionId,
            { bc with pendingTransactions := bc.pendingTransactions ++ [transaction] })

/-- The per-transaction balance update of `getBalanceOfAddress`
(src/testnet.js:176-184): subtract when sender, add when recipient.  A null
`fromAddress` is never strictly equal to the queried string address. -/
def balanceStep (address : String) (balance : Int) (trans : Transaction) : Int :=
  let balance := if trans.fromAddress == some address
    then balance - trans.amount else balance
  if trans.toAddress == some address then balance + trans.amount else balance

/-- `Blockchain.getBalanceOfAddress` (src/testnet.js:170-199): fold the
update over every transaction of every chain block, then over the pending
pool. -/
def Blockchain.getBalanceOfAddress (bc : Blockchain) (address : String) : Int :=
  bc.pendingTransactions.foldl (balanceStep address)
    (bc.chain.foldl
      (fun bal block => block.transactions.foldl (balanceStep address) bal) 0)

/-- The loop of `Blockchain.isChainValid` (src/testnet.js:235-253), walking
the chain from index 1 with the predecessor at hand: invalid transactions,
a stored hash differing from the recomputed hash, or a broken predecessor
link each yield `false`; exceptions from `hasValidTransactions` propagate. -/
def chainValidFrom : Block → List Block → Except String Bool
  | _, [] => .ok true
  | previousBlock, currentBlock :: rest => do
    let v ← currentBlock.hasValidTransactions
    if !v then .ok false
    else if currentBlock.hash != currentBlock.calculateHash then .ok false
    else if currentBlock.previousHash != previousBlock.hash then .ok false
    else chainValidFrom currentBlock rest

/-- `Blockchain.isChainValid` (src/testnet.js:233-255).  The loop starts at
index 1, so a chain with at most one block is vacuously valid. -/
def Blockchain.isChainValid (bc : Blockchain) : Except String Bool :=
  match bc.chain with
  | [] => .ok true
  | genesis :: rest => chainValidFrom genesis rest

/-! ## Reachable ledger states

The states produced solely through `submit` (`addTransaction`) and scheduler
ticks (`validatePendingTransactions`), starting from a freshly constructed
`Blockchain`. -/

/-- A ledger state reachable from construction through successful submits and
scheduler ticks only. -/
inductive Reachable : Blockchain → Prop
  | init (genesisNow genesisSlot faucetKey faucetTxNow : Nat) (faucetTxId : String) :
      Reachable (Blockchain.init genesisNow genesisSlot faucetKey faucetTxNow faucetTxId)
  | submit {bc bc' : Blockchain} {tx : Transaction} {id : String} :
      Reachable bc → bc.addTransaction tx = .ok (id, bc') → Reachable bc'
  | tick {bc : Blockchain} (now slotNow : Nat) :
      Reachable bc → Reachable (bc.validatePendingTransactions now slotNow)

/-! ## Specification-side derived state -/

/-- Every transaction recorded in the ledger: those confirmed in any chain
block, in chain order, followed by the pending pool. -/
def allLedgerTxs (bc : Blockchain) : List Transaction :=
  (bc.chain.map Block.transactions).flatten ++ bc.pendingTransactions

/-- Spec-side signed delta a single transaction contributes to an address's
balance: its amount when the address is the recipient, minus its amount when
the address is the sender. -/
def txDelta (address : String) (t : Transaction) : Int :=
  (if t.toAddress == some address then t.amount else 0)
    - (if t.fromAddress == some address then t.amount else 0)

/-- Spec-side inflow: total amount received by an address over a list of
transactions. -/
def inflowSum (address : String) (l : List Transaction) : Int :=
  ((l.filter fun t => t.toAddress == some address).map Transaction.amount).sum

/-- Spec-side outflow: total amount sent by an address over a list of
transactions. -/
def outflowSum (address : String) (l : List Transaction) : Int :=
  ((l.filter fun t => t.fromAddress == some address).map Transaction.amount).sum

/-! ## Balance lemmas -/

lemma balanceStep_eq_add_delta (address : String) (bal : Int) (t : Transaction) :
    balanceStep address bal t = bal + txDelta address t := by
  unfold balanceStep txDelta
  by_cases hf : t.fromAddress == some address <;>
    by_cases ht : t.toAddress == some address <;>
    simp [hf, ht] <;> ring

lemma foldl_balanceStep (address : String) (bal : Int) (l : List Transaction) :
    l.foldl (balanceStep address) bal = bal + ((l.map (txDelta address)).sum) := by
  induction l generalizing bal with
  | nil => simp
  | cons t rest ih =>
    simp only [List.foldl_cons, List.map_cons, List.sum_cons]
    rw [ih, balanceStep_eq_add_delta]
    ring

lemma delta_sum_eq_in_sub_out (address : String) (l : List Transaction) :
    (l.map (txDelta address)).sum = inflowSum address l - outflowSum address l := by
  induction l with
  | nil => simp [inflowSum, outflowSum]
  | cons t rest ih =>
    simp only [List.map_cons, List.sum_cons, inflowSum, outflowSum, txDelta] at *
    by_cases hf : t.fromAddress == some address <;>
      by_cases ht : t.toAddress == some address <;>
      simp [hf, ht, List.filter_cons, ih, inflowSum, outflowSum] <;> ring

lemma foldl_blocks_eq_foldl_flatten (address : String) (z : Int)
    (blocks : List Block) :
    blocks.foldl (fun bal block => block.transactions.foldl (balanceStep address) bal) z
      = (blocks.map Block.transactions).flatten.foldl (balanceStep address) z := by
  induction blocks generalizing z with
  | nil => simp
  | cons b rest ih =>
    simp only [List.map_cons, List.flatten_cons, List.foldl_cons, List.foldl_append]
    exact ih _

lemma getBalance_eq_foldl_all (bc : Blockchain) (address : String) :
    bc.getBalanceOfAddress address
      = (allLedgerTxs bc).foldl (balanceStep address) 0 := by
  unfold Blockchain.getBalanceOfAddress allLedgerTxs
  rw [List.foldl_append, foldl_blocks_eq_foldl_flatten]

lemma getBalance_spec (bc : Blockchain) (address : String) :
    bc.getBalanceOfAddress address
      = inflowSum address (allLedgerTxs bc) - outflowSum address (allLedgerTxs bc) := by
  rw [getBalance_eq_foldl_all, foldl_balanceStep, delta_sum_eq_in_sub_out]
  ring

/-- A scheduler tick moves transactions from the pool into a new block but
records exactly the same transactions overall. -/
lemma allLedgerTxs_tick (bc : Blockchain) (now slotNow : Nat) :
    allLedgerTxs (bc.validatePendingTransactions now slotNow) = allLedgerTxs bc := by
  unfold Blockchain.validatePendingTransactions
  by_cases h : bc.pendingTransactions.length == 0
  · simp [h]
  · simp only [Bool.not_eq_true] at h
    simp only [h, Bool.false_eq_true, if_false, allLedgerTxs, List.map_append,
      List.map_cons, List.map_nil, List.flatten_append, List.flatten_cons,
      List.flatten_nil, Block.make, List.append_nil, List.append_assoc]
    rw [List.take_append_drop]

/-! ## Successful submission: what `addTransaction` guarantees -/

/-- Eliminating a successful `addTransaction`: the returned id is the
transaction's own id, the chain is untouched, the transaction is appended at
the tail of the pending pool, and its `isValid()` evaluates without
throwing. -/
lemma addTransaction_ok_elim {bc bc' : Blockchain} {t : Transaction} {id : String}
    (h : bc.addTransaction t = .ok (id, bc')) :
    id = t.transactionId
      ∧ bc'.chain = bc.chain
      ∧ bc'.pendingTransactions = bc.pendingTransactions ++ [t]
      ∧ (∃ v, t.isValid = Except.ok v) := by
  unfold Blockchain.addTransaction at h
  by_cases hto : jsFalsyStr t.toAddress = true
  · rw [if_pos hto] at h
    exact absurd h (by simp)
  · rw [if_neg hto] at h
    cases hfrom : t.fromAddress with
    | none =>
      rw [hfrom] at h
      simp only [Except.ok.injEq, Prod.mk.injEq] at h
      obtain ⟨hid, hbc⟩ := h
      refine ⟨hid.symm, ?_, ?_, ⟨true, ?_⟩⟩
      · rw [← hbc]
      · rw [← hbc]
      · unfold Transaction.isValid
        rw [hfrom]
    | some p =>
      rw [hfrom] at h
      simp only at h
      by_cases hfe : jsFalsyStr (some p) = true
      · rw [if_pos hfe] at h
        exact absurd h (by simp)
      · rw [if_neg hfe] at h
        cases hv : t.isValid with
        | error e =>
          rw [hv] at h
          simp [Bind.bind, Except.bind] at h
        | ok v =>
          rw [hv] at h
          simp only [Bind.bind, Except.bind] at h
          cases v with
          | false => simp at h
          | true =>
            simp only [Bool.not_true, Bool.false_eq_true, if_false,
              Except.ok.injEq, Prod.mk.injEq] at h
            obtain ⟨hid, hbc⟩ := h
            exact ⟨hid.symm, by rw [← hbc], by rw [← hbc], ⟨true, rfl⟩⟩

/-- A successful submission appends exactly the submitted transaction to the
recorded transactions. -/
lemma allLedgerTxs_submit {bc bc' : Blockchain} {t : Transaction} {id : String}
    (h : bc.addTransaction t = .ok (id, bc')) :
    allLedgerTxs bc' = allLedgerTxs bc ++ [t] := by
  obtain ⟨_, hchain, hpend, _⟩ := addTransaction_ok_elim h
  unfold allLedgerTxs
  rw [hchain, hpend, List.append_assoc]

/-! ## Well-signedness invariant of reachable states -/

/-- Every transaction recorded in the ledger evaluates `isValid()` without
throwing: it is either a system transaction or carries a non-empty
signature. -/
def ledgerTxsOk (bc : Blockchain) : Prop :=
  ∀ t ∈ allLedgerTxs bc, ∃ v, t.isValid = Except.ok v

lemma reachable_ledgerTxsOk {bc : Blockchain} (h : Reachable bc) :
    ledgerTxsOk bc := by
  induction h with
  | init genesisNow genesisSlot faucetKey faucetTxNow faucetTxId =>
    intro t ht
    simp only [allLedgerTxs, Blockchain.init, createGenesisBlock, Block.make,
      List.map_cons, List.map_nil, List.flatten_cons, List.flatten_nil,
      List.nil_append, List.mem_singleton] at ht
    subst ht
    exact ⟨true, rfl⟩
  | submit hr hok ih =>
    intro t ht
    rw [allLedgerTxs_submit hok, List.mem_append, List.mem_singleton] at ht
    cases ht with
    | inl hmem => exact ih t hmem
    | inr heq =>
      obtain ⟨_, _, _, hvalid⟩ := addTransaction_ok_elim hok
      exact heq ▸ hvalid
  | tick now slotNow hr ih =>
    intro t ht
    rw [allLedgerTxs_tick] at ht
    exact ih t ht

/-! ## Totality of chain validation over well-signed transactions -/

lemma allTxsValid_total {l : List Transaction}
    (h : ∀ t ∈ l, ∃ v, t.isValid = Except.ok v) :
    ∃ v, allTxsValid l = Except.ok v := by
  induction l with
  | nil => exact ⟨true, rfl⟩
  | cons t rest ih =>
    obtain ⟨v, hv⟩ := h t (List.mem_cons_self t rest)
    unfold allTxsValid
    rw [hv]
    simp only [Bind.bind, Except.bind]
    cases v with
    | false => exact ⟨false, rfl⟩
    | true =>
      simp only [Bool.not_true, Bool.false_eq_true, if_false]
      exact ih fun t' ht' => h t' (List.mem_cons_of_mem t ht')

lemma chainValidFrom_total {rest : List Block}
    (h : ∀ b ∈ rest, ∀ t ∈ b.transactions, ∃ v, t.isValid = Except.ok v) :
    ∀ prev : Block, ∃ v, chainValidFrom prev rest = Except.ok v := by
  induction rest with
  | nil => exact fun prev => ⟨true, rfl⟩
  | cons b rest ih =>
    intro prev
    obtain ⟨v, hv⟩ := allTxsValid_total (h b (List.mem_cons_self b rest))
    unfold chainValidFrom Block.hasValidTransactions
    rw [hv]
    simp only [Bind.bind, Except.bind]
    cases v with
    | false => exact ⟨false, rfl⟩
    | true =>
      simp only [Bool.not_true, Bool.false_eq_true, if_false]
      by_cases h1 : (b.hash != b.calculateHash) = true
      · rw [if_pos h1]
        exact ⟨false, rfl⟩
      · rw [if_neg h1]
        by_cases h2 : (b.previousHash != prev.hash) = true
        · rw [if_pos h2]
          exact ⟨false, rfl⟩
        · rw [if_neg h2]
          exact ih (fun b' hb' => h b' (List.mem_cons_of_mem b hb')) b

/-- On any reachable ledger state, `isChainValid()` evaluates to a boolean
rather than throwing. -/
lemma reachable_isChainValid_total {bc : Blockchain} (h : Reachable bc) :
    ∃ v, bc.isChainValid = Except.ok v := by
  have hok := reachable_ledgerTxsOk h
  unfold Blockchain.isChainValid
  cases hchain : bc.chain with
  | nil => exact ⟨true, rfl⟩
  | cons genesis rest =>
    refine chainValidFrom_total (fun b hb t ht => hok t ?_) genesis
    unfold allLedgerTxs
    refine List.mem_append_left _ (List.mem_flatten.mpr ⟨b.transactions, ?_, ht⟩)
    refine List.mem_map_of_mem Block.transactions ?_
    rw [hchain]
    exact List.mem_cons_of_mem genesis hb

/-! ## Small auxiliary lemmas -/

lemma string_length_beq_zero_false {s : String} (h : s ≠ "") :
    (s.length == 0) = false := by
  cases s with
  | mk data =>
    cases data with
    | nil => exact absurd rfl h
    | cons c cs => rfl

/-- A tick on a non-empty pool, written out: the block built from the first
`transactionsPerBlock` pending transactions is appended and exactly those
transactions leave the pool. -/
lemma tick_nonempty_eq {bc : Blockchain} (now slotNow : Nat)
    (h : bc.pendingTransactions ≠ []) :
    bc.validatePendingTransactions now slotNow
      = { bc with
          chain := bc.chain
            ++ [Block.make now (bc.pendingTransactions.take bc.transactionsPerBlock)
                bc.getLatestBlock.hash slotNow]
          pendingTransactions := bc.pendingTransactions.drop bc.transactionsPerBlock } := by
  unfold Blockchain.validatePendingTransactions
  have hlen : (bc.pendingTransactions.length == 0) = false := by
    simp [List.length_eq_zero, h]
  simp only [hlen, Bool.false_eq_true, if_false]

/-! ## Claim theorems -/

/-- C1 (code bug): a chain produced solely through construction and one
scheduler tick already fails `isChainValid()`.  The `Block` constructor
computes the stored `hash` while `this.slot` is still unassigned (the string
"undefined" enters the hash input), whereas validation recomputes the hash
with the numeric slot, so the appended block's recomputed hash differs from
its stored hash and the whole chain is reported invalid. -/
theorem c1_tick_chain_fails_isChainValid :
    ((Blockchain.init 0 0 7 0 "f").validatePendingTransactions 1 2).isChainValid
        = Except.ok false
      ∧ ((Blockchain.init 0 0 7 0 "f").validatePendingTransactions 1 2).getLatestBlock.calculateHash
        ≠ ((Blockchain.init 0 0 7 0 "f").validatePendingTransactions 1 2).getLatestBlock.hash :=
  ⟨rfl, by decide⟩

/-- C8: from a fresh ledger, submitting the system transaction
`(null, "A", 1000)` and running one scheduler tick yields
`balanceOf("A") = 1000` and a chain of length 2 (genesis plus one batch
block). -/
theorem c8_system_payout_scenario :
    ((Blockchain.init 0 0 7 0 "f").addTransaction
        (Transaction.create none (some "A") 1000 5 "atx")).map
      (fun p => ((p.2.validatePendingTransactions 9 9).getBalanceOfAddress "A",
        (p.2.validatePendingTransactions 9 9).chain.length))
      = Except.ok (1000, 2) := rfl

/-- C9: immediately after construction the chain holds only the genesis block
(empty transactions, previousHash "0") while the pool already holds exactly
one system transaction of 10000000 to the internally generated faucet
address; hence the very first tick appends a block with nothing ever
submitted. -/
theorem c9_fresh_ledger_has_pending_faucet (genesisNow genesisSlot faucetKey
    faucetTxNow : Nat) (faucetTxId : String) (now slotNow : Nat) :
    (Blockchain.init genesisNow genesisSlot faucetKey faucetTxNow faucetTxId).chain
        = [createGenesisBlock genesisNow genesisSlot]
      ∧ (createGenesisBlock genesisNow genesisSlot).transactions = []
      ∧ (createGenesisBlock genesisNow genesisSlot).previousHash = "0"
      ∧ (Blockchain.init genesisNow genesisSlot faucetKey faucetTxNow faucetTxId).pendingTransactions
        = [Transaction.create none (some (pubHex faucetKey)) 10000000 faucetTxNow faucetTxId]
      ∧ (Transaction.create none (some (pubHex faucetKey)) 10000000 faucetTxNow faucetTxId).fromAddress
        = none
      ∧ ((Blockchain.init genesisNow genesisSlot faucetKey faucetTxNow faucetTxId).validatePendingTransactions
          now slotNow).chain.length = 2 :=
  ⟨rfl, rfl, rfl, rfl, rfl, rfl⟩

/-- A transaction claiming a sender address but never signed, as it would
appear if inserted into a block without passing `addTransaction`. -/
def unsignedTx : Transaction :=
  { fromAddress := some (pubHex 1)
    toAddress := some "B"
    amount := 5
    timestamp := 3
    signature := none
    transactionId := "u1" }

/-- A hand-built ledger whose second block holds an unsigned non-system
transaction, bypassing submission. -/
def handBuiltLedger : Blockchain :=
  { chain := [createGenesisBlock 0 0,
      Block.make 1 [unsignedTx] (createGenesisBlock 0 0).hash 2]
    pendingTransactions := []
    transactionsPerBlock := 20
    validatorReward := 10
    autoValidationInterval := 2000
    faucetKey := 7
    faucetAddress := pubHex 7 }

/-- C10: on every state reachable through submits and ticks alone,
`isChainValid()` returns a boolean (submission rejects unsigned non-system
transactions, so the throwing branch of `isValid()` is unreachable); yet on a
chain holding a block with an unsigned non-system transaction it throws the
missing-signature error instead of returning `false`. -/
theorem c10_isChainValid_total_on_reachable :
    (∀ bc : Blockchain, Reachable bc → ∃ v, bc.isChainValid = Except.ok v)
      ∧ handBuiltLedger.isChainValid
        = Except.error "No signature in this transaction" :=
  ⟨fun _ h => reachable_isChainValid_total h, rfl⟩

/-- Witness for C10 at a concrete reachable state. -/
theorem c10_isChainValid_total_on_reachable_witness :
    ∃ v, (Blockchain.init 0 0 7 0 "f").isChainValid = Except.ok v :=
  c10_isChainValid_total_on_reachable.1 (Blockchain.init 0 0 7 0 "f")
    (Reachable.init 0 0 7 0 "f")

/-- C3: on every reachable state the computed balance of an address equals
the spec-side sum of inflows minus outflows over all confirmed and pending
transactions, and a scheduler tick leaves every balance unchanged. -/
theorem c3_balance_replay (bc : Blockchain) (h : Reachable bc) (address : String) :
    bc.getBalanceOfAddress address
        = inflowSum address (allLedgerTxs bc) - outflowSum address (allLedgerTxs bc)
      ∧ ∀ now slotNow : Nat,
        (bc.validatePendingTransactions now slotNow).getBalanceOfAddress address
          = bc.getBalanceOfAddress address :=
  ⟨getBalance_spec bc address, fun now slotNow => by
    rw [getBalance_spec, getBalance_spec, allLedgerTxs_tick]⟩

/-- Witness for C3 at a concrete reachable state and address. -/
theorem c3_balance_replay_witness :
    (Blockchain.init 0 0 7 0 "f").getBalanceOfAddress "A"
        = inflowSum "A" (allLedgerTxs (Blockchain.init 0 0 7 0 "f"))
          - outflowSum "A" (allLedgerTxs (Blockchain.init 0 0 7 0 "f"))
      ∧ ((Blockchain.init 0 0 7 0 "f").validatePendingTransactions 1 2).getBalanceOfAddress "A"
        = (Blockchain.init 0 0 7 0 "f").getBalanceOfAddress "A" :=
  ⟨(c3_balance_replay _ (Reachable.init 0 0 7 0 "f") "A").1,
    (c3_balance_replay _ (Reachable.init 0 0 7 0 "f") "A").2 1 2⟩

/-- C4: a tick on an empty pool is a no-op producing no block; a tick on a
non-empty pool appends exactly one block holding the oldest
up-to-`transactionsPerBlock` pending transactions in FIFO order and leaves
exactly the remainder pending; a pool smaller than the batch size drains
entirely; with 25 pending transactions and batch size 20, one tick yields a
20-transaction block and 5 retained transactions. -/
theorem c4_tick_batching (bc : Blockchain) (now slotNow : Nat) :
    (bc.pendingTransactions = [] → bc.validatePendingTransactions now slotNow = bc)
  ∧ (bc.pendingTransactions ≠ [] →
      (bc.validatePendingTransactions now slotNow).chain
          = bc.chain ++ [Block.make now (bc.pendingTransactions.take bc.transactionsPerBlock)
              bc.getLatestBlock.hash slotNow]
        ∧ (bc.validatePendingTransactions now slotNow).pendingTransactions
          = bc.pendingTransactions.drop bc.transactionsPerBlock)
  ∧ (bc.pendingTransactions ≠ [] → bc.pendingTransactions.length ≤ bc.transactionsPerBlock →
      (bc.validatePendingTransactions now slotNow).getLatestBlock.transactions
          = bc.pendingTransactions
        ∧ (bc.validatePendingTransactions now slotNow).pendingTransactions = [])
  ∧ (bc.pendingTransactions.length = 25 → bc.transactionsPerBlock = 20 →
      (bc.validatePendingTransactions now slotNow).getLatestBlock.transactions.length = 20
        ∧ (bc.validatePendingTransactions now slotNow).pendingTransactions.length = 5
        ∧ (bc.validatePendingTransactions now slotNow).chain.length = bc.chain.length + 1) := by
  refine ⟨?_, ?_, ?_, ?_⟩
  · intro h
    unfold Blockchain.validatePendingTransactions
    simp [h]
  · intro h
    rw [tick_nonempty_eq now slotNow h]
    exact ⟨rfl, rfl⟩
  · intro h hle
    rw [tick_nonempty_eq now slotNow h]
    constructor
    · unfold Blockchain.getLatestBlock
      simp [List.getLast?_concat, Block.make, List.take_of_length_le hle]
    · simp [List.drop_eq_nil_of_le hle]
  · intro h25 hpb
    have hne : bc.pendingTransactions ≠ [] := by
      intro hnil
      rw [hnil] at h25
      simp at h25
    rw [tick_nonempty_eq now slotNow hne]
    refine ⟨?_, ?_, ?_⟩
    · unfold Blockchain.getLatestBlock
      simp only [List.getLast?_concat, Option.getD_some, Block.make]
      rw [List.length_take, h25, hpb]
      decide
    · simp [List.length_drop, h25, hpb]
    · simp [List.length_append]

/-- A ledger whose pool holds 25 user transactions (as after a first tick
drained the faucet transaction and 25 submissions followed). -/
def demoLedger : Blockchain :=
  { chain := [createGenesisBlock 0 0]
    pendingTransactions :=
      (List.range 25).map fun i => Transaction.create none (some "U") 1 i (toString i)
    transactionsPerBlock := 20
    validatorReward := 10
    autoValidationInterval := 2000
    faucetKey := 7
    faucetAddress := pubHex 7 }

/-- `demoLedger` with nothing pending. -/
def drainedLedger : Blockchain :=
  { demoLedger with pendingTransactions := [] }

/-- Witness for C4: the no-op case on an empty pool and the 25-into-20
scenario, at concrete states. -/
theorem c4_tick_batching_witness :
    drainedLedger.validatePendingTransactions 3 4 = drainedLedger
      ∧ ((demoLedger.validatePendingTransactions 30 31).getLatestBlock.transactions.length = 20
        ∧ (demoLedger.validatePendingTransactions 30 31).pendingTransactions.length = 5
        ∧ (demoLedger.validatePendingTransactions 30 31).chain.length = demoLedger.chain.length + 1) :=
  ⟨(c4_tick_batching drainedLedger 3 4).1 rfl,
    (c4_tick_batching demoLedger 30 31).2.2.2 rfl rfl⟩

/-- C5: `isValid()` is unconditionally true for the system sentinel sender;
throws the missing-signature error when the signature is absent or empty;
otherwise returns the engine's verification of the signature against the
sender's public key over the digest — so for a transaction whose sender is
the address of keypair k, it returns true exactly when the signature is the
one produced by k's private key over the transaction's digest. -/
theorem c5_isValid_authorization (t : Transaction) :
    (t.fromAddress = none → t.isValid = Except.ok true)
  ∧ (∀ p, t.fromAddress = some p → (t.signature = none ∨ t.signature = some "") →
      t.isValid = Except.error "No signature in this transaction")
  ∧ (∀ p s, t.fromAddress = some p → t.signature = some s → s ≠ "" →
      t.isValid = Except.ok (ecVerify p t.calculateHash s))
  ∧ (∀ k s, t.fromAddress = some (pubHex k) → t.signature = some s → s ≠ "" →
      (t.isValid = Except.ok true ↔ s = ecSign k t.calculateHash)) := by
  refine ⟨?_, ?_, ?_, ?_⟩
  · intro h
    unfold Transaction.isValid
    rw [h]
  · intro p hp hs
    unfold Transaction.isValid
    rw [hp]
    cases hs with
    | inl h => rw [h]
    | inr h => rw [h]; rfl
  · intro p s hp hs hne
    unfold Transaction.isValid
    rw [hp, hs]
    simp only [string_length_beq_zero_false hne, Bool.false_eq_true, if_false]
  · intro k s hp hs hne
    unfold Transaction.isValid
    rw [hp, hs]
    simp only [string_length_beq_zero_false hne, Bool.false_eq_true, if_false,
      Except.ok.injEq, ecVerify, ecSign, beq_iff_eq]

/-- A system transaction used as concrete input. -/
def sysTxW : Transaction := Transaction.create none (some "C") 2 6 "s1"

/-- A user transaction from the address of keypair 3, unsigned as created. -/
def userTxW : Transaction := Transaction.create (some (pubHex 3)) (some "D") 3 7 "u2"

/-- `userTxW` signed by its owner, keypair 3. -/
def userTxWSigned : Transaction :=
  { userTxW with signature := some (ecSign 3 userTxW.calculateHash) }

/-- Witness for C5 at concrete transactions: the system case, the
missing-signature case, and the iff at a correctly signed transaction. -/
theorem c5_isValid_authorization_witness :
    sysTxW.isValid = Except.ok true
      ∧ userTxW.isValid = Except.error "No signature in this transaction"
      ∧ (userTxWSigned.isValid = Except.ok true
          ↔ ecSign 3 userTxW.calculateHash = ecSign 3 userTxWSigned.calculateHash) :=
  ⟨(c5_isValid_authorization sysTxW).1 rfl,
    (c5_isValid_authorization userTxW).2.1 (pubHex 3) rfl (Or.inl rfl),
    (c5_isValid_authorization userTxWSigned).2.2.2 3 (ecSign 3 userTxW.calculateHash)
      rfl rfl (by decide)⟩

/-- The base of the wrong-key scenario: a transaction claiming keypair 1's
address as sender. -/
def wrongSigBase : Transaction := Transaction.create (some (pubHex 1)) (some "B") 5 4 "w1"

/-- The wrong-key scenario transaction: it carries a signature produced by
keypair 2's private key over the digest, while claiming keypair 1's
address. -/
def wrongSigTx : Transaction :=
  { wrongSigBase with signature := some (ecSign 2 wrongSigBase.calculateHash) }

/-- C6: `signTransaction` is a no-op success (signature left unset) for the
null system sender; fails, leaving the transaction unchanged, when the
signing key's derived public id differs from `fromAddress`; on success sets
the signature over the digest.  Consequently a transaction carrying another
keypair's signature while claiming this keypair's address is rejected by
submission as an invalid (unauthorized) transaction. -/
theorem c6_sign_ownership (t : Transaction) (k : Nat) :
    (t.fromAddress = none → t.signTransaction k = Except.ok t)
  ∧ (∀ p, t.fromAddress = some p → pubHex k ≠ p →
      t.signTransaction k = Except.error "You cannot sign transactions for other wallets!")
  ∧ (t.fromAddress = some (pubHex k) →
      t.signTransaction k = Except.ok { t with signature := some (ecSign k t.calculateHash) })
  ∧ ((Blockchain.init 0 0 7 0 "f").addTransaction wrongSigTx
      = Except.error "Cannot add invalid transaction to the chain") := by
  refine ⟨?_, ?_, ?_, rfl⟩
  · intro h
    unfold Transaction.signTransaction
    rw [h]
  · intro p hp hne
    have hb : (pubHex k != p) = true := bne_iff_ne.mpr hne
    unfold Transaction.signTransaction
    rw [hp]
    simp only [hb, if_true]
  · intro h
    unfold Transaction.signTransaction
    rw [h]
    simp [bne_self_eq_false]

/-- Witness for C6: the system no-op, the foreign-wallet failure, and a
successful self-signing, at concrete transactions and keys. -/
theorem c6_sign_ownership_witness :
    sysTxW.signTransaction 5 = Except.ok sysTxW
      ∧ userTxW.signTransaction 5
        = Except.error "You cannot sign transactions for other wallets!"
      ∧ userTxW.signTransaction 3 = Except.ok userTxWSigned :=
  ⟨(c6_sign_ownership sysTxW 5).1 rfl,
    (c6_sign_ownership userTxW 5).2.1 (pubHex 3) rfl (by decide),
    (c6_sign_ownership userTxW 3).2.2.1 rfl⟩

/-! ## Block-level transaction validation -/

lemma allTxsValid_true_iff {l : List Transaction}
    (h : ∀ t ∈ l, ∃ v, t.isValid = Except.ok v) :
    allTxsValid l = Except.ok true ↔ ∀ t ∈ l, t.isValid = Except.ok true := by
  induction l with
  | nil => simp [allTxsValid]
  | cons t rest ih =>
    obtain ⟨v, hv⟩ := h t (List.mem_cons_self t rest)
    unfold allTxsValid
    rw [hv]
    simp only [Bind.bind, Except.bind]
    cases v with
    | false =>
      simp only [Bool.not_false, if_true]
      constructor
      · intro hc
        exact absurd hc (by simp)
      · intro hall
        rw [hall t (List.mem_cons_self t rest)] at hv
        exact hv.symm
    | true =>
      simp only [Bool.not_true, Bool.false_eq_true, if_false]
      rw [ih fun t' ht' => h t' (List.mem_cons_of_mem t ht')]
      constructor
      · intro hall t' ht'
        rcases List.mem_cons.mp ht' with rfl | hm
        · exact hv
        · exact hall t' hm
      · intro hall t' ht'
        exact hall t' (List.mem_cons_of_mem t ht')

lemma allTxsValid_false_of_mem {l : List Transaction}
    (h : ∀ t ∈ l, ∃ v, t.isValid = Except.ok v)
    {t : Transaction} (ht : t ∈ l) (hf : t.isValid = Except.ok false) :
    allTxsValid l = Except.ok false := by
  induction l with
  | nil => cases ht
  | cons t' rest ih =>
    obtain ⟨v, hv⟩ := h t' (List.mem_cons_self t' rest)
    unfold allTxsValid
    rw [hv]
    simp only [Bind.bind, Except.bind]
    cases v with
    | false => simp
    | true =>
      simp only [Bool.not_true, Bool.false_eq_true, if_false]
      rcases List.mem_cons.mp ht with rfl | hm
      · rw [hf] at hv
        exact absurd hv (by simp)
      · exact ih (fun a ha => h a (List.mem_cons_of_mem t' ha)) hm

/-- C7 (amended): over a block whose transactions all evaluate `isValid()`
without throwing, `hasValidTransactions()` is true exactly when every
contained transaction is authorized, and a single unauthorized transaction
makes the whole block's result false. -/
theorem c7_block_authorization (b : Block)
    (h : ∀ t ∈ b.transactions, ∃ v, t.isValid = Except.ok v) :
    (b.hasValidTransactions = Except.ok true
        ↔ ∀ t ∈ b.transactions, t.isValid = Except.ok true)
      ∧ ∀ t ∈ b.transactions, t.isValid = Except.ok false →
        b.hasValidTransactions = Except.ok false :=
  ⟨allTxsValid_true_iff h, fun _ ht hf => allTxsValid_false_of_mem h ht hf⟩

/-- A block holding one unauthorized (wrong-key-signed) transaction. -/
def badBlock : Block := Block.make 9 [wrongSigTx] "ph" 9

/-- C7 counterexample: the failing block yields the plain boolean `false` —
no `InvalidTransaction` error naming the offending transaction's id is
signalled, contrary to the claim. -/
theorem c7_counterexample_plain_false :
    badBlock.hasValidTransactions = Except.ok false := rfl

/-- A block holding one system transaction. -/
def sysBlock : Block := Block.make 3 [sysTxW] "0" 4

/-- Witness for C7 at a concrete block of system transactions. -/
theorem c7_block_authorization_witness :
    (sysBlock.hasValidTransactions = Except.ok true
        ↔ ∀ t ∈ sysBlock.transactions, t.isValid = Except.ok true)
      ∧ sysBlock.hasValidTransactions = Except.ok true :=
  have h : ∀ t ∈ sysBlock.transactions, ∃ v, t.isValid = Except.ok v := by
    intro t ht
    have heq : t = sysTxW := by simpa [sysBlock, Block.make] using ht
    subst heq
    exact ⟨true, rfl⟩
  ⟨(c7_block_authorization sysBlock h).1, rfl⟩

/-- C2 (amended): `addTransaction` fails when the destination is missing or
empty, succeeds immediately for system (null-sender) transactions, fails
when a non-system sender is empty, fails for a non-system transaction whose
signature is missing, empty, or does not verify, and otherwise appends the
transaction to the pending pool and returns its id.  No validation of
`amount` is performed anywhere on this path.  Failures return before the
pool is touched, so the ledger state is unchanged on every error. -/
theorem c2_submit_validation (bc : Blockchain) (t : Transaction) :
    (jsFalsyStr t.toAddress = true →
      bc.addTransaction t = Except.error "Transaction must include a destination address")
  ∧ (jsFalsyStr t.toAddress = false → t.fromAddress = none →
      bc.addTransaction t = Except.ok (t.transactionId,
        { bc with pendingTransactions := bc.pendingTransactions ++ [t] }))
  ∧ (jsFalsyStr t.toAddress = false → t.fromAddress = some "" →
      bc.addTransaction t = Except.error "Transaction must include a sender address")
  ∧ (∀ p, jsFalsyStr t.toAddress = false → t.fromAddress = some p → p ≠ "" →
      (t.signature = none ∨ t.signature = some "") →
      bc.addTransaction t = Except.error "No signature in this transaction")
  ∧ (∀ p s, jsFalsyStr t.toAddress = false → t.fromAddress = some p → p ≠ "" →
      t.signature = some s → s ≠ "" →
      bc.addTransaction t = (if ecVerify p t.calculateHash s
        then Except.ok (t.transactionId,
          { bc with pendingTransactions := bc.pendingTransactions ++ [t] })
        else Except.error "Cannot add invalid transaction to the chain")) := by
  refine ⟨?_, ?_, ?_, ?_, ?_⟩
  · intro h
    unfold Blockchain.addTransaction
    rw [if_pos h]
  · intro hto hfrom
    unfold Blockchain.addTransaction
    rw [if_neg (by simp [hto]), hfrom]
  · intro hto hfrom
    unfold Blockchain.addTransaction
    rw [if_neg (by simp [hto]), hfrom]
    rfl
  · intro p hto hfrom hpne hsig
    have hpf : jsFalsyStr (some p) = false := by
      simp [jsFalsyStr, hpne]
    have hv : t.isValid = Except.error "No signature in this transaction" := by
      unfold Transaction.isValid
      rw [hfrom]
      cases hsig with
      | inl h => rw [h]
      | inr h => rw [h]; rfl
    unfold Blockchain.addTransaction
    rw [if_neg (by simp [hto]), hfrom]
    simp only [hpf, Bool.false_eq_true, if_false, hv, Bind.bind, Except.bind]
  · intro p s hto hfrom hpne hs hsne
    have hpf : jsFalsyStr (some p) = false := by
      simp [jsFalsyStr, hpne]
    have hv : t.isValid = Except.ok (ecVerify p t.calculateHash s) := by
      unfold Transaction.isValid
      rw [hfrom, hs]
      simp only [string_length_beq_zero_false hsne, Bool.false_eq_true, if_false]
    unfold Blockchain.addTransaction
    rw [if_neg (by simp [hto]), hfrom]
    simp only [hpf, Bool.false_eq_true, if_false, hv, Bind.bind, Except.bind]
    cases hEV : ecVerify p t.calculateHash s with
    | false => simp
    | true => simp

/-- A system transaction with a malformed, negative amount. -/
def malformedAmountTx : Transaction := Transaction.create none (some "B") (-5) 3 "bad"

/-- C2 counterexample: submission performs no validation of `amount`.  A
transaction with the malformed amount -5 is admitted to the pool (its id is
returned and the pool grows to 2), where the claim requires an
`InvalidTransaction` failure. -/
theorem c2_counterexample_amount_not_validated :
    ((Blockchain.init 0 0 7 0 "f").addTransaction malformedAmountTx).map
      (fun p => (p.1, p.2.pendingTransactions.length)) = Except.ok ("bad", 2) := rfl

/-- A transaction with no destination address. -/
def noDestinationTx : Transaction := Transaction.create (some (pubHex 2)) none 5 3 "n1"

/-- Witness for C2 at concrete inputs: the missing-destination failure, the
system-transaction success, and the verified-signature success. -/
theorem c2_submit_validation_witness :
    (Blockchain.init 0 0 7 0 "f").addTransaction noDestinationTx
        = Except.error "Transaction must include a destination address"
      ∧ (Blockchain.init 0 0 7 0 "f").addTransaction sysTxW
        = Except.ok (sysTxW.transactionId,
          { Blockchain.init 0 0 7 0 "f" with
            pendingTransactions :=
              (Blockchain.init 0 0 7 0 "f").pendingTransactions ++ [sysTxW] })
      ∧ (Blockchain.init 0 0 7 0 "f").addTransaction userTxWSigned
        = (if ecVerify (pubHex 3) userTxWSigned.calculateHash
              (ecSign 3 userTxW.calculateHash)
            then Except.ok (userTxWSigned.transactionId,
              { Blockchain.init 0 0 7 0 "f" with
                pendingTransactions :=
                  (Blockchain.init 0 0 7 0 "f").pendingTransactions ++ [userTxWSigned] })
            else Except.error "Cannot add invalid transaction to the chain") :=
  ⟨(c2_submit_validation (Blockchain.init 0 0 7 0 "f") noDestinationTx).1 rfl,
    (c2_submit_validation (Blockchain.init 0 0 7 0 "f") sysTxW).2.1 rfl rfl,
    (c2_submit_validation (Blockchain.init 0 0 7 0 "f") userTxWSigned).2.2.2.2
      (pubHex 3) (ecSign 3 userTxW.calculateHash) rfl rfl (by decide) rfl (by decide)⟩
